import Mathlib

/-!
# Fleet compliance dashboard (`frontend/script.js`)

A shallow embedding of the dashboard's view-model logic: status derivation,
the filter / sort pipeline, the statistics counters, the sort-state handler
and the auto-refresh timer.

JavaScript values that come out of `response.json()` are modelled by `Json`;
`undefined` (a missing property) is `none` in `JsVal = Option Json`.
Built-ins whose behaviour is platform semantics rather than code of this file
(`String.prototype.toLowerCase`, the `Date` constructor, the relational
operators on operands that are neither two strings nor two dates, the clock)
are fields of `JsEnv`, and every theorem holds for all environments.
-/

namespace Dashboard

/-! ## Data model -/

/-- A parsed JSON value. Numbers carry an integer payload; no function of the
dashboard inspects the payload of a number outside `JsEnv`. -/
inductive Json where
  | null
  | bool (b : Bool)
  | num (n : Int)
  | str (s : String)
  | arr (items : List Json)
  | obj (members : List (String × Json))

/-- A JavaScript value obtained from parsed JSON; `none` stands for `undefined`. -/
abbrev JsVal := Option Json

/-- A machine record: the own properties of one JSON object of the fetched array. -/
structure Machine where
  members : List (String × Json)

/-- Property read `machine[name]` on a record: `undefined` when the property
is missing. Only own properties are modelled; the names read are data fields
of the records, none of them a member of `Object.prototype`. -/
def Machine.prop (m : Machine) (name : String) : JsVal :=
  m.members.lookup name

/-- Property read `check[property]` on a value that is neither `null` nor
`undefined`. Only objects carry the property names the dashboard reads
(`encrypted`, `up_to_date`, `antivirus_present`, `compliant`); on a primitive
or an array the read yields `undefined`. -/
def getProp (check : Json) (property : String) : JsVal :=
  match check with
  | Json.obj members => members.lookup property
  | _ => none

/-- Optional chaining `value?.property`. -/
def optChain (value : JsVal) (property : String) : JsVal :=
  match value with
  | none => none
  | some Json.null => none
  | some j => getProp j property

/-- The test `check === false`. -/
def isFalse (check : JsVal) : Bool :=
  match check with
  | some (Json.bool false) => true
  | _ => false

/-- The test `value === true`. -/
def isTrue (value : JsVal) : Bool :=
  match value with
  | some (Json.bool true) => true
  | _ => false

/-- The test `value === text` against a string: true only for that very string. -/
def strictEqString (value : JsVal) (text : String) : Bool :=
  match value with
  | some (Json.str s) => decide (s = text)
  | _ => false

/-- The test `check === null || check === undefined`. -/
def isNullish (check : JsVal) : Bool :=
  match check with
  | none => true
  | some Json.null => true
  | _ => false

/-! ## Status derivation -/

/-- The array `checks` built at the top of `getMachineStatus`. -/
def machineChecks (machine : Machine) : List JsVal :=
  [ optChain (machine.prop "disk_encryption") "encrypted",
    optChain (machine.prop "os_update") "up_to_date",
    optChain (machine.prop "antivirus") "antivirus_present",
    optChain (machine.prop "sleep_settings") "compliant" ]

/-- `getMachineStatus(machine)`. -/
def getMachineStatus (machine : Machine) : String :=
  let checks := machineChecks machine
  let failedChecks := (checks.filter fun check => isFalse check).length
  let unknownChecks := (checks.filter fun check => isNullish check).length
  if failedChecks > 0 then "critical"
  else if unknownChecks > 0 then "warning"
  else "healthy"

/-! ## Strings and platform built-ins -/

/-- UTF-16 code units of one character: JavaScript strings are sequences of
code units, and both `<` and `includes` work on them. -/
def charUnits (c : Char) : List Nat :=
  if c.toNat < 65536 then [c.toNat]
  else [55296 + (c.toNat - 65536) / 1024, 56320 + (c.toNat - 65536) % 1024]

/-- UTF-16 code units of a string. -/
def codeUnits (s : String) : List Nat :=
  s.data.flatMap charUnits

/-- `text.includes(search)`: `search` occurs in `text` as a contiguous run of code units. -/
def includes (text search : String) : Bool :=
  decide (codeUnits search <:+: codeUnits text)

/-- An operand of the comparison in `sortMachines`, after the conversions the
comparator applies: a string, a `Date` object (`none` is an invalid date), or
any other value read from the record. -/
inductive SortVal where
  | str (s : String)
  | date (time : Option Int)
  | other (v : JsVal)

/-- Built-ins the dashboard calls. `newDate v` is the time value in
milliseconds of `new Date(v)` (`none` for an invalid date); `lessThan` is the
operator `<` on operand pairs that are neither two strings nor two dates;
`now` is the time value of `new Date()`; `typeErrorMessage` is the message
text of a `TypeError` raised by the engine. The one law assumed of
`toLowerCase` is that on a string of ASCII characters it lower-cases the
letters `A`-`Z` and changes nothing else. -/
structure JsEnv where
  toLowerCase : String → String
  newDate : JsVal → Option Int
  lessThan : SortVal → SortVal → Bool
  now : Int
  typeErrorMessage : String
  toLowerCase_ascii : ∀ s : String, (∀ c ∈ s.data, c.toNat < 128) →
    toLowerCase s = String.mk (s.data.map Char.toLower)

/-- An exception: a `TypeError` raised by the engine, or `new Error(message)`. -/
inductive JsError where
  | typeError
  | error (message : String)

/-- The property `error.message`. -/
def JsError.message (env : JsEnv) : JsError → String
  | JsError.typeError => env.typeErrorMessage
  | JsError.error message => message

/-- `Array.prototype.filter` with a callback that may throw: elements are
visited in order and the first exception ends the call. -/
def filterE {α ε : Type} (callback : α → Except ε Bool) : List α → Except ε (List α)
  | [] => Except.ok []
  | x :: xs =>
    match callback x with
    | Except.error e => Except.error e
    | Except.ok keep =>
      match filterE callback xs with
      | Except.error e => Except.error e
      | Except.ok rest => Except.ok (if keep then x :: rest else rest)

/-- `Array.prototype.sort(compareFn)`: a stable sort in which `a` stays before
`b` when `compareFn(a, b) <= 0`. For a consistent comparator every conforming
engine produces this order. -/
def arraySort {α : Type} (compareFn : α → α → Int) (l : List α) : List α :=
  l.insertionSort (fun a b => compareFn a b ≤ 0)

/-! ## Application state -/

/-- `const REFRESH_INTERVAL = 30000; // 30 seconds`. -/
def REFRESH_INTERVAL : Nat := 30000

/-- The values `updateStats` writes to the four statistics elements. -/
structure Stats where
  totalMachines : Int
  issueCount : Int
  healthyCount : Int
  lastUpdate : String

/-- The module-level variables together with the form controls and UI
elements the modelled functions read and write. -/
structure AppState where
  machines : List Machine
  filteredMachines : List Machine
  sortColumn : String
  sortDirection : String
  osFilter : String
  issueFilter : String
  searchFilter : String
  stats : Stats
  loadingVisible : Bool
  errorVisible : Bool
  errorText : String

/-- The state when the script has been evaluated: `machines = []`,
`filteredMachines = []`, `sortColumn = 'timestamp'`, `sortDirection = 'desc'`,
with empty filter controls. -/
def initialState : AppState :=
  { machines := [], filteredMachines := [], sortColumn := "timestamp", sortDirection := "desc",
    osFilter := "", issueFilter := "", searchFilter := "",
    stats := { totalMachines := 0, issueCount := 0, healthyCount := 0, lastUpdate := "--" },
    loadingVisible := false, errorVisible := false, errorText := "" }

/-! ## Rendering helpers -/

/-- The badge `getCheckStatus` returns for a passed check. -/
def badgePass : String :=
  "<span class=\"status-badge status-healthy\"><i class=\"fas fa-check\"></i> Pass</span>"

/-- The badge `getCheckStatus` returns for a failed check. -/
def badgeFail : String :=
  "<span class=\"status-badge status-critical\"><i class=\"fas fa-times\"></i> Fail</span>"

/-- The badge `getCheckStatus` returns for an unknown check. -/
def badgeUnknown : String :=
  "<span class=\"status-badge status-unknown\"><i class=\"fas fa-question-circle\"></i> Unknown</span>"

/-- The icon `getCheckIcon` returns for a passed check. -/
def iconPass : String := "<i class=\"fas fa-check check-pass\"></i>"

/-- The icon `getCheckIcon` returns for a failed check. -/
def iconFail : String := "<i class=\"fas fa-times check-fail\"></i>"

/-- The icon `getCheckIcon` returns for an unknown check. -/
def iconUnknown : String := "<i class=\"fas fa-question-circle check-unknown\"></i>"

/-- `getCheckStatus(check, property)` (table view). -/
def getCheckStatus (check : JsVal) (property : String) : String :=
  match check with
  | none => badgeUnknown
  | some Json.null => badgeUnknown
  | some c =>
    let value := getProp c property
    if isTrue value then badgePass
    else if isFalse value then badgeFail
    else badgeUnknown

/-- `getCheckIcon(check, property)` (card view). -/
def getCheckIcon (check : JsVal) (property : String) : String :=
  match check with
  | none => iconUnknown
  | some Json.null => iconUnknown
  | some c =>
    let value := getProp c property
    if isTrue value then iconPass
    else if isFalse value then iconFail
    else iconUnknown

/-- The four check cells `renderTableView` puts in a record's row. -/
def tableCheckCells (machine : Machine) : List String :=
  [ getCheckStatus (machine.prop "disk_encryption") "encrypted",
    getCheckStatus (machine.prop "os_update") "up_to_date",
    getCheckStatus (machine.prop "antivirus") "antivirus_present",
    getCheckStatus (machine.prop "sleep_settings") "compliant" ]

/-- `hasIssue(machine, issueType)`. -/
def hasIssue (machine : Machine) (issueType : String) : Bool :=
  if issueType = "unencrypted_disk" then
    isFalse (optChain (machine.prop "disk_encryption") "encrypted")
  else if issueType = "outdated_os" then
    isFalse (optChain (machine.prop "os_update") "up_to_date")
  else if issueType = "no_antivirus" then
    isFalse (optChain (machine.prop "antivirus") "antivirus_present")
  else if issueType = "sleep_noncompliant" then
    isFalse (optChain (machine.prop "sleep_settings") "compliant")
  else false

/-! ## Relative time -/

/-- `formatRelativeTime(date)`, with `now - date` already formed: `none` is the
`NaN` difference of an invalid date. `Math.floor(x / k)` for a positive `k` is
integer division rounding down. -/
def formatRelativeTimeDiff (diff : Option Int) : String :=
  match diff with
  | none => "NaNd ago"
  | some d =>
    let minutes := d / 60000
    let hours := minutes / 60
    let days := hours / 24
    if minutes < 1 then "Just now"
    else if minutes < 60 then toString minutes ++ "m ago"
    else if hours < 24 then toString hours ++ "h ago"
    else toString days ++ "d ago"

/-- `formatRelativeTime(date)` for a `Date` with time value `date`. -/
def formatRelativeTime (env : JsEnv) (date : Option Int) : String :=
  formatRelativeTimeDiff (date.map fun t => env.now - t)

/-! ## Statistics -/

/-- `Math.max(x, ...xs)` on time values: `NaN` (`none`) as soon as one argument is `NaN`. -/
def mathMax (x : Option Int) (xs : List (Option Int)) : Option Int :=
  xs.foldl (fun acc y =>
    match acc, y with
    | some a, some b => some (max a b)
    | _, _ => none) x

/-- The local `lastUpdate` of `updateStats`: `null` for an empty list,
otherwise the largest `new Date(m.timestamp).getTime()`. Both `null` and `NaN`
are `none`; they are falsy alike. -/
def lastUpdateOf (env : JsEnv) (machines : List Machine) : Option Int :=
  match machines with
  | [] => none
  | m :: ms =>
    mathMax (env.newDate (m.prop "timestamp")) (ms.map fun x => env.newDate (x.prop "timestamp"))

/-- The counters and text `updateStats` computes from `machines`. -/
def computeStats (env : JsEnv) (machines : List Machine) : Stats :=
  let total : Int := machines.length
  let healthy : Int := (machines.filter fun m => getMachineStatus m = "healthy").length
  let withIssues : Int := total - healthy
  let lastUpdate := lastUpdateOf env machines
  { totalMachines := total
    issueCount := withIssues
    healthyCount := healthy
    lastUpdate :=
      match lastUpdate with
      | some t => if t ≠ 0 then formatRelativeTime env (some t) else "--"
      | none => "--" }

/-- `updateStats()`. -/
def updateStats (env : JsEnv) (st : AppState) : AppState :=
  { st with stats := computeStats env st.machines }

/-! ## Sorting -/

/-- The operand `aVal` the comparator of `sortMachines` derives from a record. -/
def sortOperand (env : JsEnv) (sortColumn : String) (a : Machine) : SortVal :=
  if sortColumn = "status" then SortVal.str (env.toLowerCase (getMachineStatus a))
  else if sortColumn = "timestamp" then SortVal.date (env.newDate (a.prop sortColumn))
  else
    match a.prop sortColumn with
    | some (Json.str s) => SortVal.str (env.toLowerCase s)
    | v => SortVal.other v

/-- The operator `aVal < bVal`: code-unit order on two strings, numeric order
of the time values on two dates (false when either is invalid). -/
def jsLess (env : JsEnv) : SortVal → SortVal → Bool
  | SortVal.str a, SortVal.str b => decide (codeUnits a < codeUnits b)
  | SortVal.date (some x), SortVal.date (some y) => decide (x < y)
  | SortVal.date _, SortVal.date _ => false
  | a, b => env.lessThan a b

/-- The comparator passed to `filteredMachines.sort` in `sortMachines`. -/
def compareMachines (env : JsEnv) (sortColumn sortDirection : String) (a b : Machine) : Int :=
  let aVal := sortOperand env sortColumn a
  let bVal := sortOperand env sortColumn b
  let result : Int :=
    if jsLess env aVal bVal then -1
    else if jsLess env bVal aVal then 1
    else 0
  if sortDirection = "desc" then -result else result

/-- `sortMachines()`. -/
def sortMachines (env : JsEnv) (st : AppState) : AppState :=
  { st with
    filteredMachines :=
      arraySort (compareMachines env st.sortColumn st.sortDirection) st.filteredMachines }

/-! ## Filtering -/

/-- The callback of `machines.filter` in `applyFilters`; `searchFilter` is the
lower-cased search text. `machine.machine_id.toLowerCase()` raises a
`TypeError` unless `machine_id` is a string. -/
def filterCallback (env : JsEnv) (osFilter issueFilter searchFilter : String)
    (machine : Machine) : Except JsError Bool :=
  if osFilter ≠ "" ∧ strictEqString (machine.prop "os") osFilter = false then Except.ok false
  else if issueFilter ≠ "" ∧ hasIssue machine issueFilter = false then Except.ok false
  else if searchFilter ≠ "" then
    match machine.prop "machine_id" with
    | some (Json.str id) =>
      if includes (env.toLowerCase id) searchFilter = false then Except.ok false
      else Except.ok true
    | _ => Except.error JsError.typeError
  else Except.ok true

/-- `applyFilters()`: the assignment to `filteredMachines` followed by
`sortMachines()`. An exception in the filter callback leaves the call before
the assignment. `renderMachines()` and `updateMachineCount()` are not
modelled: they write to the document and leave the module variables alone,
though in card view `renderCardView` can itself raise a `TypeError` on a
record whose `machine_id` is not a string (`machine_id.substring`). -/
def applyFilters (env : JsEnv) (st : AppState) : Except JsError AppState :=
  let osFilter := st.osFilter
  let issueFilter := st.issueFilter
  let searchFilter := env.toLowerCase st.searchFilter
  match filterE (filterCallback env osFilter issueFilter searchFilter) st.machines with
  | Except.error e => Except.error e
  | Except.ok kept => Except.ok (sortMachines env { st with filteredMachines := kept })

/-- `clearFilters()`. -/
def clearFilters (env : JsEnv) (st : AppState) : Except JsError AppState :=
  applyFilters env { st with osFilter := "", issueFilter := "", searchFilter := "" }

/-- `handleSort(column)`. -/
def handleSort (env : JsEnv) (column : String) (st : AppState) : AppState :=
  let st1 : AppState :=
    if st.sortColumn = column then
      { st with sortDirection := if st.sortDirection = "asc" then "desc" else "asc" }
    else
      { st with sortColumn := column, sortDirection := "desc" }
  sortMachines env st1

/-! ## Loading -/

/-- `showError(message)`. -/
def showError (message : String) (st : AppState) : AppState :=
  { st with errorText := message, errorVisible := true }

/-- What `fetch(url)` delivers to `fetchMachines`: a rejection (network
failure), or a response with its `ok` flag, `status`, `statusText` and the
result of `response.json()` (`none` for a `null` body). -/
inductive FetchOutcome where
  | rejected (error : JsError)
  | response (ok : Bool) (status : Nat) (statusText : String)
      (body : Except JsError (Option (List Machine)))

/-- `fetchMachines()`: the rejection of `fetch` propagates; a response whose
`ok` flag is false throws `new Error("HTTP " + status + ": " + statusText)`;
otherwise the result of `response.json()` is returned. -/
def fetchMachines : FetchOutcome → Except JsError (Option (List Machine))
  | FetchOutcome.rejected error => Except.error error
  | FetchOutcome.response ok status statusText body =>
    if !ok then Except.error (JsError.error ("HTTP " ++ toString status ++ ": " ++ statusText))
    else body

/-- `loadMachines()`, given the outcome of `fetchMachines()`: an exception, or
the parsed body (`none` for a `null` body). -/
def loadMachines (env : JsEnv) (fetched : Except JsError (Option (List Machine)))
    (st : AppState) : AppState :=
  let st1 : AppState := { st with loadingVisible := true, errorVisible := false }
  match fetched with
  | Except.error e =>
    { showError ("Failed to load machine data: " ++ e.message env) st1 with
      loadingVisible := false }
  | Except.ok data =>
    let st2 := updateStats env { st1 with machines := data.getD [] }
    match applyFilters env st2 with
    | Except.ok st3 => { st3 with loadingVisible := false }
    | Except.error e =>
      { showError ("Failed to load machine data: " ++ e.message env) st2 with
        loadingVisible := false }

/-! ## Auto-refresh timer -/

/-- The variable `refreshInterval`: `undefined` until first assigned, then a
timer id or `null`. -/
inductive Handle where
  | undefined
  | null
  | id (n : Nat)

/-- The callbacks the script passes to `setInterval`: only `() => { loadMachines(); }`. -/
inductive TimerCallback where
  | loadMachines

/-- An interval timer registered with `setInterval(callback, delay)`. -/
structure Timer where
  id : Nat
  callback : TimerCallback
  delay : Nat

/-- The interval timers that are active, the stored handle, and the id the
next `setInterval` returns (ids are positive and never reused). -/
structure TimerState where
  active : List Timer
  refreshInterval : Handle
  nextId : Nat

/-- The timer state when the script has been evaluated. -/
def TimerState.initial : TimerState :=
  { active := [], refreshInterval := Handle.undefined, nextId := 1 }

/-- `startAutoRefresh()`: `refreshInterval = setInterval(..., REFRESH_INTERVAL)`. -/
def startAutoRefresh (ts : TimerState) : TimerState :=
  { active := ts.active ++
      [{ id := ts.nextId, callback := TimerCallback.loadMachines, delay := REFRESH_INTERVAL }]
    refreshInterval := Handle.id ts.nextId
    nextId := ts.nextId + 1 }

/-- `stopAutoRefresh()`: when the handle is truthy, `clearInterval` it and set it to `null`. -/
def stopAutoRefresh (ts : TimerState) : TimerState :=
  match ts.refreshInterval with
  | Handle.id n =>
    if n ≠ 0 then
      { ts with active := ts.active.filter (fun t => t.id ≠ n), refreshInterval := Handle.null }
    else ts
  | _ => ts

/-- The page events that touch the timer. -/
inductive PageEvent where
  | domContentLoaded
  | visibilityChange (hidden : Bool)

/-- The timer part of the `DOMContentLoaded` and `visibilitychange` handlers. -/
def timerStep (ts : TimerState) : PageEvent → TimerState
  | PageEvent.domContentLoaded => startAutoRefresh ts
  | PageEvent.visibilityChange true => stopAutoRefresh ts
  | PageEvent.visibilityChange false => startAutoRefresh ts

/-- The timer state after `DOMContentLoaded` followed by the given
`visibilitychange` events (`true` for `document.hidden`). -/
def runTimer (events : List Bool) : TimerState :=
  events.foldl (fun ts hidden => timerStep ts (PageEvent.visibilityChange hidden))
    (timerStep TimerState.initial PageEvent.domContentLoaded)

/-! ## Event wiring -/

/-- The user and network events that reach the modelled state: a click on a
sort button, a change of the filter controls, a click on "clear filters", and
a completed `loadMachines` call. -/
inductive AppEvent where
  | sort (column : String)
  | filters (os issue search : String)
  | clear
  | load (fetched : Except JsError (Option (List Machine)))

/-- The listener run for an event. An exception that escapes `applyFilters` in
a listener leaves the state as it was when the exception was raised. -/
def appStep (env : JsEnv) (st : AppState) : AppEvent → AppState
  | AppEvent.sort column => handleSort env column st
  | AppEvent.filters os issue search =>
    let st1 : AppState := { st with osFilter := os, issueFilter := issue, searchFilter := search }
    match applyFilters env st1 with
    | Except.ok st2 => st2
    | Except.error _ => st1
  | AppEvent.clear =>
    match clearFilters env st with
    | Except.ok st2 => st2
    | Except.error _ => { st with osFilter := "", issueFilter := "", searchFilter := "" }
  | AppEvent.load fetched => loadMachines env fetched st

/-- The state reached from `initialState` by a sequence of events. -/
def runApp (env : JsEnv) (events : List AppEvent) : AppState :=
  events.foldl (appStep env) initialState

/-! ## Specification-side definitions and sample data -/

/-- The selection condition as the specification words it: `os` is empty or
the record's `os` is that string; `issue` is empty or `hasIssue` holds;
`search` is empty or the lower-cased `machine_id` contains the lower-cased
search text. -/
def specSelected (env : JsEnv) (os issue search : String) (m : Machine) : Bool :=
  (decide (os = "") || strictEqString (m.prop "os") os) &&
  (decide (issue = "") || hasIssue m issue) &&
  (decide (search = "") ||
    match m.prop "machine_id" with
    | some (Json.str id) => includes (env.toLowerCase id) (env.toLowerCase search)
    | _ => false)

/-- An environment for evaluating examples: lower-cases the letters `A`-`Z`,
reads a number as a time value and `null` as the epoch, and never orders
operands outside the two cases `jsLess` decides itself. -/
def sampleEnv : JsEnv :=
  { toLowerCase := fun s => String.mk (s.data.map Char.toLower)
    newDate := fun v =>
      match v with
      | some (Json.num n) => some n
      | some Json.null => some 0
      | _ => none
    lessThan := fun _ _ => false
    now := 1700000000000
    typeErrorMessage := "Cannot read properties of null (reading 'toLowerCase')"
    toLowerCase_ascii := fun _ _ => rfl }

/-- A record with all four checks passed. -/
def sampleHealthy : Machine :=
  ⟨[("machine_id", Json.str "PC-Alpha"), ("os", Json.str "Windows"),
    ("timestamp", Json.num 1699999000000),
    ("disk_encryption", Json.obj [("encrypted", Json.bool true)]),
    ("os_update", Json.obj [("up_to_date", Json.bool true)]),
    ("antivirus", Json.obj [("antivirus_present", Json.bool true)]),
    ("sleep_settings", Json.obj [("compliant", Json.bool true)])]⟩

/-- A record with an unencrypted disk and no sleep-settings object. -/
def sampleCritical : Machine :=
  ⟨[("machine_id", Json.str "srv-beta"), ("os", Json.str "Linux"),
    ("timestamp", Json.num 1699999500000),
    ("disk_encryption", Json.obj [("encrypted", Json.bool false)]),
    ("os_update", Json.obj [("up_to_date", Json.bool true)]),
    ("antivirus", Json.obj [("antivirus_present", Json.bool true)]),
    ("sleep_settings", Json.null)]⟩

/-- A record with no failed check and an unknown antivirus state. -/
def sampleWarning : Machine :=
  ⟨[("machine_id", Json.str "mac-gamma"), ("os", Json.str "Darwin"),
    ("timestamp", Json.num 1699998000000),
    ("disk_encryption", Json.obj [("encrypted", Json.bool true)]),
    ("os_update", Json.obj [("up_to_date", Json.bool true)]),
    ("antivirus", Json.obj [("antivirus_present", Json.null)]),
    ("sleep_settings", Json.obj [("compliant", Json.bool true)])]⟩

/-- A record whose `machine_id` is `null`. -/
def sampleNullId : Machine :=
  ⟨[("machine_id", Json.null), ("os", Json.str "Linux"),
    ("timestamp", Json.num 1699999000000),
    ("disk_encryption", Json.obj [("encrypted", Json.bool true)]),
    ("os_update", Json.obj [("up_to_date", Json.bool true)]),
    ("antivirus", Json.obj [("antivirus_present", Json.bool true)]),
    ("sleep_settings", Json.obj [("compliant", Json.bool true)])]⟩

/-- A record whose `encrypted` value is the string `"yes"`, the other three
checks being `true`. -/
def sampleStringCheck : Machine :=
  ⟨[("machine_id", Json.str "pc-delta"), ("os", Json.str "Windows"),
    ("timestamp", Json.num 1699999000000),
    ("disk_encryption", Json.obj [("encrypted", Json.str "yes")]),
    ("os_update", Json.obj [("up_to_date", Json.bool true)]),
    ("antivirus", Json.obj [("antivirus_present", Json.bool true)]),
    ("sleep_settings", Json.obj [("compliant", Json.bool true)])]⟩

/-- A state holding the three well-formed sample records. -/
def sampleState : AppState :=
  { initialState with
    machines := [sampleHealthy, sampleCritical, sampleWarning]
    filteredMachines := [sampleHealthy, sampleCritical, sampleWarning] }

/-! ## Shared lemmas -/

theorem filter_length_pos_iff {α : Type} (p : α → Bool) (l : List α) :
    0 < (l.filter p).length ↔ ∃ x ∈ l, p x = true := by
  rw [List.length_pos, ne_eq, List.filter_eq_nil_iff]
  push_neg
  rfl

theorem isFalse_iff (v : JsVal) : isFalse v = true ↔ v = some (Json.bool false) := by
  unfold isFalse
  split <;> simp_all

theorem isNullish_iff (v : JsVal) : isNullish v = true ↔ (v = none ∨ v = some Json.null) := by
  unfold isNullish
  split <;> simp_all

theorem isTrue_iff (v : JsVal) : isTrue v = true ↔ v = some (Json.bool true) := by
  unfold isTrue
  split <;> simp_all

theorem status_critical_iff (m : Machine) :
    getMachineStatus m = "critical" ↔ ∃ v ∈ machineChecks m, v = some (Json.bool false) := by
  have h := filter_length_pos_iff (fun c => isFalse c) (machineChecks m)
  simp only [isFalse_iff] at h
  rw [← h]
  unfold getMachineStatus
  constructor
  · intro hs
    by_contra hn
    simp only [gt_iff_lt, hn, if_false] at hs
    split at hs <;> exact absurd hs (by decide)
  · intro hp
    simp only [gt_iff_lt, hp, if_true]

theorem status_warning_iff (m : Machine) :
    getMachineStatus m = "warning" ↔
      (∀ v ∈ machineChecks m, v ≠ some (Json.bool false)) ∧
      ∃ v ∈ machineChecks m, v = none ∨ v = some Json.null := by
  have hf := filter_length_pos_iff (fun c => isFalse c) (machineChecks m)
  have hu := filter_length_pos_iff (fun c => isNullish c) (machineChecks m)
  simp only [isFalse_iff] at hf
  simp only [isNullish_iff] at hu
  rw [← hu]
  have hnf : (∀ v ∈ machineChecks m, v ≠ some (Json.bool false)) ↔
      ¬ 0 < ((machineChecks m).filter fun c => isFalse c).length := by
    rw [hf]; push_neg; rfl
  rw [hnf]
  unfold getMachineStatus
  constructor
  · intro hs
    by_cases h1 : 0 < ((machineChecks m).filter fun c => isFalse c).length
    · simp only [gt_iff_lt, h1, if_true] at hs
      exact absurd hs (by decide)
    · refine ⟨h1, ?_⟩
      by_contra h2
      simp only [gt_iff_lt, h1, h2, if_false] at hs
      exact absurd hs (by decide)
  · rintro ⟨h1, h2⟩
    simp only [gt_iff_lt, h1, h2, if_false, if_true]

theorem status_healthy_iff (m : Machine) :
    getMachineStatus m = "healthy" ↔
      (∀ v ∈ machineChecks m, v ≠ some (Json.bool false)) ∧
      ∀ v ∈ machineChecks m, v ≠ none ∧ v ≠ some Json.null := by
  have hf := filter_length_pos_iff (fun c => isFalse c) (machineChecks m)
  have hu := filter_length_pos_iff (fun c => isNullish c) (machineChecks m)
  simp only [isFalse_iff] at hf
  simp only [isNullish_iff] at hu
  have hnf : (∀ v ∈ machineChecks m, v ≠ some (Json.bool false)) ↔
      ¬ 0 < ((machineChecks m).filter fun c => isFalse c).length := by
    rw [hf]; push_neg; rfl
  have hnu : (∀ v ∈ machineChecks m, v ≠ none ∧ v ≠ some Json.null) ↔
      ¬ 0 < ((machineChecks m).filter fun c => isNullish c).length := by
    rw [hu]; push_neg; rfl
  rw [hnf, hnu]
  unfold getMachineStatus
  constructor
  · intro hs
    by_cases h1 : 0 < ((machineChecks m).filter fun c => isFalse c).length
    · simp only [gt_iff_lt, h1, if_true] at hs
      exact absurd hs (by decide)
    · refine ⟨h1, ?_⟩
      intro h2
      simp only [gt_iff_lt, h1, h2, if_false, if_true] at hs
      exact absurd hs (by decide)
  · rintro ⟨h1, h2⟩
    simp only [gt_iff_lt, h1, h2, if_false]

theorem status_cases (m : Machine) :
    getMachineStatus m = "critical" ∨ getMachineStatus m = "warning" ∨
      getMachineStatus m = "healthy" := by
  unfold getMachineStatus
  simp only []
  split
  · exact Or.inl rfl
  · split
    · exact Or.inr (Or.inl rfl)
    · exact Or.inr (Or.inr rfl)

theorem codeUnits_empty : codeUnits "" = [] := rfl

theorem includes_empty (text : String) : includes text "" = true := by
  simp [includes, codeUnits_empty]

theorem filterE_ok {α ε : Type} (callback : α → Except ε Bool) (p : α → Bool) (l : List α)
    (h : ∀ x ∈ l, callback x = Except.ok (p x)) :
    filterE callback l = Except.ok (l.filter p) := by
  induction l with
  | nil => rfl
  | cons x xs ih =>
    have hx := h x (List.mem_cons_self x xs)
    have hxs := ih (fun y hy => h y (List.mem_cons_of_mem x hy))
    simp only [filterE, hx, hxs, List.filter_cons]

theorem arraySort_perm {α : Type} (compareFn : α → α → Int) (l : List α) :
    (arraySort compareFn l).Perm l :=
  List.perm_insertionSort _ l

theorem toLowerCase_empty (env : JsEnv) : env.toLowerCase "" = "" := by
  rw [env.toLowerCase_ascii "" (by simp)]
  rfl

theorem toLowerCase_status (env : JsEnv) (m : Machine) :
    env.toLowerCase (getMachineStatus m) = getMachineStatus m := by
  rcases status_cases m with h | h | h <;> rw [h]
  · rw [env.toLowerCase_ascii "critical" (by decide)]; decide
  · rw [env.toLowerCase_ascii "warning" (by decide)]; decide
  · rw [env.toLowerCase_ascii "healthy" (by decide)]; decide

theorem filterCallback_eq_spec (env : JsEnv) (os issue search : String) (m : Machine)
    (id : String) (hid : m.prop "machine_id" = some (Json.str id)) :
    filterCallback env os issue (env.toLowerCase search) m =
      Except.ok (specSelected env os issue search m) := by
  have hspec : (decide (search = "") ||
      includes (env.toLowerCase id) (env.toLowerCase search)) =
      includes (env.toLowerCase id) (env.toLowerCase search) := by
    by_cases hs : search = ""
    · subst hs
      rw [toLowerCase_empty, includes_empty]
      simp
    · simp [hs]
  have hcode : (if env.toLowerCase search ≠ "" then
        (if includes (env.toLowerCase id) (env.toLowerCase search) = false
          then (Except.ok false : Except JsError Bool) else Except.ok true)
        else Except.ok true) =
      Except.ok (includes (env.toLowerCase id) (env.toLowerCase search)) := by
    by_cases hL : env.toLowerCase search = ""
    · rw [hL, includes_empty]
      simp
    · cases hinc : includes (env.toLowerCase id) (env.toLowerCase search) <;> simp [hL]
  unfold filterCallback specSelected
  simp only [hid, hspec, hcode]
  by_cases hos : os = "" <;> by_cases his : issue = "" <;>
    cases h1 : strictEqString (m.prop "os") os <;>
    cases h2 : hasIssue m issue <;>
    simp [hos, his, h1, h2]

theorem specSelected_iff (env : JsEnv) (os issue search : String) (m : Machine) :
    specSelected env os issue search m = true ↔
      (os = "" ∨ m.prop "os" = some (Json.str os)) ∧
      (issue = "" ∨ hasIssue m issue = true) ∧
      (search = "" ∨ ∃ id, m.prop "machine_id" = some (Json.str id) ∧
        includes (env.toLowerCase id) (env.toLowerCase search) = true) := by
  have hos : strictEqString (m.prop "os") os = true ↔ m.prop "os" = some (Json.str os) := by
    unfold strictEqString
    split <;> simp_all
  have hid : (match m.prop "machine_id" with
      | some (Json.str id) => includes (env.toLowerCase id) (env.toLowerCase search)
      | _ => false) = true ↔
      ∃ id, m.prop "machine_id" = some (Json.str id) ∧
        includes (env.toLowerCase id) (env.toLowerCase search) = true := by
    split <;> simp_all
  unfold specSelected
  simp only [Bool.and_eq_true, Bool.or_eq_true, decide_eq_true_eq, hos, hid, and_assoc]

theorem hasIssue_unknown (m : Machine) (issue : String)
    (h : issue ∉ ["unencrypted_disk", "outdated_os", "no_antivirus", "sleep_noncompliant"]) :
    hasIssue m issue = false := by
  simp only [List.mem_cons, List.mem_singleton, List.not_mem_nil, or_false, not_or] at h
  obtain ⟨h1, h2, h3, h4⟩ := h
  simp [hasIssue, h1, h2, h3, h4]

theorem applyFilters_ok (env : JsEnv) (st : AppState)
    (hid : ∀ m ∈ st.machines, ∃ id, m.prop "machine_id" = some (Json.str id)) :
    applyFilters env st = Except.ok (sortMachines env { st with
      filteredMachines :=
        st.machines.filter (specSelected env st.osFilter st.issueFilter st.searchFilter) }) := by
  unfold applyFilters
  simp only []
  rw [filterE_ok _ (specSelected env st.osFilter st.issueFilter st.searchFilter)]
  intro m hm
  obtain ⟨id, h⟩ := hid m hm
  exact filterCallback_eq_spec env _ _ _ m id h

theorem compare_le_asc {κ : Type} [LinearOrder κ] (x y : κ) :
    (if decide (x < y) = true then (-1 : Int) else if decide (y < x) = true then 1 else 0) ≤ 0 ↔
      x ≤ y := by
  rcases lt_trichotomy x y with h | h | h
  · simp [h, le_of_lt h]
  · subst h; simp
  · simp [h, not_lt_of_gt h, not_le_of_gt h]

theorem compare_le_desc {κ : Type} [LinearOrder κ] (x y : κ) :
    -(if decide (x < y) = true then (-1 : Int) else if decide (y < x) = true then 1 else 0) ≤ 0 ↔
      y ≤ x := by
  rcases lt_trichotomy x y with h | h | h
  · simp [h, not_le_of_gt h]
  · subst h; simp
  · simp [h, not_lt_of_gt h, le_of_lt h]

theorem arraySort_pairwise {α κ : Type} [LinearOrder κ] (compareFn : α → α → Int)
    (key : α → κ) (l : List α)
    (h : ∀ a ∈ l, ∀ b ∈ l, (compareFn a b ≤ 0 ↔ key a ≤ key b)) :
    (arraySort compareFn l).Pairwise (fun a b => key a ≤ key b) := by
  have hm := List.map_insertionSort (fun a b => compareFn a b ≤ 0) (fun x y : κ => x ≤ y) key l h
  have hs := List.sorted_insertionSort (fun x y : κ => x ≤ y) (l.map key)
  rw [← hm] at hs
  exact List.pairwise_map.mp hs

theorem sortMachines_pairwise {κ : Type} [LinearOrder κ] (env : JsEnv) (st : AppState)
    (key : Machine → κ)
    (hkey : ∀ a ∈ st.filteredMachines, ∀ b ∈ st.filteredMachines,
      jsLess env (sortOperand env st.sortColumn a) (sortOperand env st.sortColumn b) =
        decide (key a < key b)) :
    (sortMachines env st).filteredMachines.Pairwise
      (fun a b => if st.sortDirection = "desc" then key b ≤ key a else key a ≤ key b) := by
  by_cases hd : st.sortDirection = "desc"
  · simp only [hd, if_true]
    have := arraySort_pairwise (κ := κᵒᵈ)
      (compareMachines env st.sortColumn st.sortDirection)
      (fun m => OrderDual.toDual (key m)) st.filteredMachines
      (by
        intro a ha b hb
        unfold compareMachines
        simp only [hd, if_true, hkey a ha b hb, hkey b hb a ha]
        rw [compare_le_desc]
        exact Iff.rfl)
    exact this
  · simp only [hd, if_false]
    exact arraySort_pairwise (compareMachines env st.sortColumn st.sortDirection) key
      st.filteredMachines
      (by
        intro a ha b hb
        unfold compareMachines
        simp only [hd, if_false, hkey a ha b hb, hkey b hb a ha]
        rw [compare_le_asc])

theorem isFalse_of_isTrue (v : JsVal) (h : isTrue v = true) : isFalse v = false := by
  rw [isTrue_iff] at h
  rw [h]
  rfl

theorem status_ne_healthy_iff (m : Machine) :
    getMachineStatus m ≠ "healthy" ↔
      (getMachineStatus m = "critical" ∨ getMachineStatus m = "warning") := by
  rcases status_cases m with h | h | h <;> rw [h] <;> decide

theorem getCheckStatus_pass_iff (check : JsVal) (property : String) :
    getCheckStatus check property = badgePass ↔
      optChain check property = some (Json.bool true) := by
  unfold getCheckStatus optChain
  split
  · simp only [reduceCtorEq, iff_false]; decide
  · simp only [reduceCtorEq, iff_false]; decide
  · simp only []
    rw [← isTrue_iff]
    cases h1 : isTrue (getProp _ property)
    · cases h2 : isFalse (getProp _ property) <;> simp <;> decide
    · simp

theorem getCheckStatus_fail_iff (check : JsVal) (property : String) :
    getCheckStatus check property = badgeFail ↔
      optChain check property = some (Json.bool false) := by
  unfold getCheckStatus optChain
  split
  · simp only [reduceCtorEq, iff_false]; decide
  · simp only [reduceCtorEq, iff_false]; decide
  · simp only []
    rw [← isFalse_iff]
    cases h1 : isTrue (getProp _ property)
    · cases h2 : isFalse (getProp _ property)
      · simp
        decide
      · simp
    · have h3 := isFalse_of_isTrue _ h1
      simp [h3]
      decide

theorem getCheckIcon_pass_iff (check : JsVal) (property : String) :
    getCheckIcon check property = iconPass ↔
      optChain check property = some (Json.bool true) := by
  unfold getCheckIcon optChain
  split
  · simp only [reduceCtorEq, iff_false]; decide
  · simp only [reduceCtorEq, iff_false]; decide
  · simp only []
    rw [← isTrue_iff]
    cases h1 : isTrue (getProp _ property)
    · cases h2 : isFalse (getProp _ property) <;> simp <;> decide
    · simp

theorem getCheckIcon_fail_iff (check : JsVal) (property : String) :
    getCheckIcon check property = iconFail ↔
      optChain check property = some (Json.bool false) := by
  unfold getCheckIcon optChain
  split
  · simp only [reduceCtorEq, iff_false]; decide
  · simp only [reduceCtorEq, iff_false]; decide
  · simp only []
    rw [← isFalse_iff]
    cases h1 : isTrue (getProp _ property)
    · cases h2 : isFalse (getProp _ property)
      · simp
        decide
      · simp
    · have h3 := isFalse_of_isTrue _ h1
      simp [h3]
      decide

theorem getCheckStatus_cases (check : JsVal) (property : String) :
    getCheckStatus check property = badgePass ∨ getCheckStatus check property = badgeFail ∨
      getCheckStatus check property = badgeUnknown := by
  unfold getCheckStatus
  split
  · exact Or.inr (Or.inr rfl)
  · exact Or.inr (Or.inr rfl)
  · simp only []
    split
    · exact Or.inl rfl
    · split
      · exact Or.inr (Or.inl rfl)
      · exact Or.inr (Or.inr rfl)

theorem getCheckIcon_cases (check : JsVal) (property : String) :
    getCheckIcon check property = iconPass ∨ getCheckIcon check property = iconFail ∨
      getCheckIcon check property = iconUnknown := by
  unfold getCheckIcon
  split
  · exact Or.inr (Or.inr rfl)
  · exact Or.inr (Or.inr rfl)
  · simp only []
    split
    · exact Or.inl rfl
    · split
      · exact Or.inr (Or.inl rfl)
      · exact Or.inr (Or.inr rfl)

theorem applyFilters_sort_state (env : JsEnv) (st st1 : AppState)
    (h : applyFilters env st = Except.ok st1) :
    st1.sortColumn = st.sortColumn ∧ st1.sortDirection = st.sortDirection := by
  unfold applyFilters at h
  simp only [] at h
  split at h
  · cases h
  · injection h with h
    rw [← h]
    exact ⟨rfl, rfl⟩

theorem loadMachines_sort_state (env : JsEnv)
    (fetched : Except JsError (Option (List Machine))) (st : AppState) :
    (loadMachines env fetched st).sortColumn = st.sortColumn ∧
      (loadMachines env fetched st).sortDirection = st.sortDirection := by
  unfold loadMachines
  cases fetched with
  | error e => exact ⟨rfl, rfl⟩
  | ok data =>
    simp only []
    split
    · next st3 h3 =>
      have := applyFilters_sort_state env _ st3 h3
      exact ⟨this.1, this.2⟩
    · exact ⟨rfl, rfl⟩

theorem handleSort_direction_valid (env : JsEnv) (column : String) (st : AppState) :
    (handleSort env column st).sortDirection = "asc" ∨
      (handleSort env column st).sortDirection = "desc" := by
  unfold handleSort sortMachines
  simp only []
  by_cases hc : st.sortColumn = column
  · by_cases hd : st.sortDirection = "asc"
    · simp [hc, hd]
    · simp [hc, hd]
  · simp [hc]

theorem applyFilters_or_direction (env : JsEnv) (st1 fallback : AppState)
    (h1 : st1.sortDirection = "asc" ∨ st1.sortDirection = "desc")
    (h2 : fallback.sortDirection = "asc" ∨ fallback.sortDirection = "desc") :
    (match applyFilters env st1 with
      | Except.ok st2 => st2
      | Except.error _ => fallback).sortDirection = "asc" ∨
    (match applyFilters env st1 with
      | Except.ok st2 => st2
      | Except.error _ => fallback).sortDirection = "desc" := by
  cases h : applyFilters env st1 with
  | error e => exact h2
  | ok st2 =>
    show st2.sortDirection = "asc" ∨ st2.sortDirection = "desc"
    rw [(applyFilters_sort_state env st1 st2 h).2]
    exact h1

theorem appStep_direction_valid (env : JsEnv) (st : AppState) (e : AppEvent)
    (h : st.sortDirection = "asc" ∨ st.sortDirection = "desc") :
    (appStep env st e).sortDirection = "asc" ∨ (appStep env st e).sortDirection = "desc" := by
  cases e with
  | sort column => exact handleSort_direction_valid env column st
  | filters os issue search =>
    exact applyFilters_or_direction env
      { st with osFilter := os, issueFilter := issue, searchFilter := search }
      { st with osFilter := os, issueFilter := issue, searchFilter := search } h h
  | clear =>
    exact applyFilters_or_direction env
      { st with osFilter := "", issueFilter := "", searchFilter := "" }
      { st with osFilter := "", issueFilter := "", searchFilter := "" } h h
  | load fetched =>
    show (loadMachines env fetched st).sortDirection = "asc" ∨
      (loadMachines env fetched st).sortDirection = "desc"
    rw [(loadMachines_sort_state env fetched st).2]
    exact h

theorem foldl_direction_valid (env : JsEnv) (events : List AppEvent) (st : AppState)
    (h : st.sortDirection = "asc" ∨ st.sortDirection = "desc") :
    (events.foldl (appStep env) st).sortDirection = "asc" ∨
      (events.foldl (appStep env) st).sortDirection = "desc" := by
  induction events generalizing st with
  | nil => exact h
  | cons e es ih => exact ih (appStep env st e) (appStep_direction_valid env st e h)

theorem runApp_direction_valid (env : JsEnv) (events : List AppEvent) :
    (runApp env events).sortDirection = "asc" ∨ (runApp env events).sortDirection = "desc" :=
  foldl_direction_valid env events initialState (Or.inr rfl)

theorem handleSort_twice (env : JsEnv) (st : AppState)
    (h : st.sortDirection = "asc" ∨ st.sortDirection = "desc") :
    (handleSort env st.sortColumn (handleSort env st.sortColumn st)).sortColumn =
        st.sortColumn ∧
      (handleSort env st.sortColumn (handleSort env st.sortColumn st)).sortDirection =
        st.sortDirection := by
  unfold handleSort sortMachines
  rcases h with h | h <;> simp [h]

theorem append_ne_just_now (s : String) (u : Char) :
    s ++ String.mk [u, ' ', 'a', 'g', 'o'] ≠ "Just now" := by
  intro h
  have h1 := congrArg (fun t : String => t.data.reverse.head?) h
  simp [String.data_append] at h1

theorem formatRelativeTimeDiff_just_now_iff (d : Int) :
    formatRelativeTimeDiff (some d) = "Just now" ↔ d < 60000 := by
  unfold formatRelativeTimeDiff
  simp only []
  constructor
  · intro h
    by_contra hd
    have h1 : ¬ d / 60000 < 1 := by omega
    rw [if_neg h1] at h
    split at h
    · exact append_ne_just_now _ 'm' h
    · split at h
      · exact append_ne_just_now _ 'h' h
      · exact append_ne_just_now _ 'd' h
  · intro hd
    have h1 : d / 60000 < 1 := by omega
    rw [if_pos h1]

/-! ## Main results -/

/-- C1: `getMachineStatus` puts every machine record in exactly one of the
statuses `critical`, `warning`, `healthy`, decided by the four check values
`disk_encryption?.encrypted`, `os_update?.up_to_date`,
`antivirus?.antivirus_present` and `sleep_settings?.compliant` of the record:
`critical` exactly when one of them is `false`; `warning` exactly when none
is `false` and one is `null` or absent; `healthy` exactly when none is `false`
and none is `null` or absent. A check value of the record is absent when its
parent object is `null` or missing, and is the parent's property when the
parent is an object. A failed check takes priority over an unknown one. -/
theorem getMachineStatus_classification (m : Machine) :
    (getMachineStatus m = "critical" ↔
      ∃ v ∈ [optChain (m.prop "disk_encryption") "encrypted",
          optChain (m.prop "os_update") "up_to_date",
          optChain (m.prop "antivirus") "antivirus_present",
          optChain (m.prop "sleep_settings") "compliant"],
        v = some (Json.bool false)) ∧
    (getMachineStatus m = "warning" ↔
      (∀ v ∈ [optChain (m.prop "disk_encryption") "encrypted",
          optChain (m.prop "os_update") "up_to_date",
          optChain (m.prop "antivirus") "antivirus_present",
          optChain (m.prop "sleep_settings") "compliant"],
        v ≠ some (Json.bool false)) ∧
      ∃ v ∈ [optChain (m.prop "disk_encryption") "encrypted",
          optChain (m.prop "os_update") "up_to_date",
          optChain (m.prop "antivirus") "antivirus_present",
          optChain (m.prop "sleep_settings") "compliant"],
        v = none ∨ v = some Json.null) ∧
    (getMachineStatus m = "healthy" ↔
      (∀ v ∈ [optChain (m.prop "disk_encryption") "encrypted",
          optChain (m.prop "os_update") "up_to_date",
          optChain (m.prop "antivirus") "antivirus_present",
          optChain (m.prop "sleep_settings") "compliant"],
        v ≠ some (Json.bool false)) ∧
      ∀ v ∈ [optChain (m.prop "disk_encryption") "encrypted",
          optChain (m.prop "os_update") "up_to_date",
          optChain (m.prop "antivirus") "antivirus_present",
          optChain (m.prop "sleep_settings") "compliant"],
        v ≠ none ∧ v ≠ some Json.null) ∧
    ((getMachineStatus m = "critical" ∧ getMachineStatus m ≠ "warning" ∧
        getMachineStatus m ≠ "healthy") ∨
      (getMachineStatus m = "warning" ∧ getMachineStatus m ≠ "critical" ∧
        getMachineStatus m ≠ "healthy") ∨
      (getMachineStatus m = "healthy" ∧ getMachineStatus m ≠ "critical" ∧
        getMachineStatus m ≠ "warning")) ∧
    (∀ parent property : String,
      m.prop parent = none ∨ m.prop parent = some Json.null →
        optChain (m.prop parent) property = none) ∧
    (∀ (parent property : String) (members : List (String × Json)),
      m.prop parent = some (Json.obj members) →
        optChain (m.prop parent) property = members.lookup property) ∧
    ((optChain (m.prop "disk_encryption") "encrypted" = some (Json.bool false) ∨
        optChain (m.prop "os_update") "up_to_date" = some (Json.bool false) ∨
        optChain (m.prop "antivirus") "antivirus_present" = some (Json.bool false) ∨
        optChain (m.prop "sleep_settings") "compliant" = some (Json.bool false)) →
      getMachineStatus m = "critical") := by
  refine ⟨status_critical_iff m, status_warning_iff m, status_healthy_iff m, ?_, ?_, ?_, ?_⟩
  · rcases status_cases m with h | h | h
    · exact Or.inl ⟨h, by rw [h]; decide, by rw [h]; decide⟩
    · exact Or.inr (Or.inl ⟨h, by rw [h]; decide, by rw [h]; decide⟩)
    · exact Or.inr (Or.inr ⟨h, by rw [h]; decide, by rw [h]; decide⟩)
  · intro parent property h
    rcases h with h | h <;> rw [h] <;> rfl
  · intro parent property members h
    rw [h]
    rfl
  · intro h
    rw [status_critical_iff]
    rcases h with h | h | h | h
    · exact ⟨_, by simp [machineChecks], h⟩
    · exact ⟨_, by simp [machineChecks], h⟩
    · exact ⟨_, by simp [machineChecks], h⟩
    · exact ⟨_, by simp [machineChecks], h⟩

/-- Witness for C1: the sample record with `encrypted: false` and
`sleep_settings: null` has an absent `compliant` value and is `critical`. -/
theorem getMachineStatus_classification_witness :
    (sampleCritical.prop "sleep_settings" = none ∨
      sampleCritical.prop "sleep_settings" = some Json.null) ∧
    optChain (sampleCritical.prop "sleep_settings") "compliant" = none ∧
    (optChain (sampleCritical.prop "disk_encryption") "encrypted" = some (Json.bool false) ∨
      optChain (sampleCritical.prop "os_update") "up_to_date" = some (Json.bool false) ∨
      optChain (sampleCritical.prop "antivirus") "antivirus_present" = some (Json.bool false) ∨
      optChain (sampleCritical.prop "sleep_settings") "compliant" = some (Json.bool false)) ∧
    getMachineStatus sampleCritical = "critical" :=
  ⟨Or.inr rfl,
    (getMachineStatus_classification sampleCritical).2.2.2.2.1 "sleep_settings" "compliant"
      (Or.inr rfl),
    Or.inl rfl,
    (getMachineStatus_classification sampleCritical).2.2.2.2.2.2 (Or.inl rfl)⟩

/-- C2: when every record has a string `machine_id`, `applyFilters` succeeds
and leaves in `filteredMachines` a permutation of the records of `machines`
that satisfy the three conditions (so each selected record keeps its
multiplicity): `os` empty or equal to the record's `os`, `issue` empty or
`hasIssue` true, `search` empty or the lower-cased `machine_id` containing the
lower-cased search text. With all three filters empty, which is what
`clearFilters` sets, the result is a permutation of `machines`; with a
non-empty issue value outside the four known types it is empty. -/
theorem applyFilters_selects (env : JsEnv) (st : AppState)
    (hid : ∀ m ∈ st.machines, ∃ id, m.prop "machine_id" = some (Json.str id)) :
    (∀ m : Machine, specSelected env st.osFilter st.issueFilter st.searchFilter m = true ↔
      (st.osFilter = "" ∨ m.prop "os" = some (Json.str st.osFilter)) ∧
      (st.issueFilter = "" ∨ hasIssue m st.issueFilter = true) ∧
      (st.searchFilter = "" ∨ ∃ id, m.prop "machine_id" = some (Json.str id) ∧
        includes (env.toLowerCase id) (env.toLowerCase st.searchFilter) = true)) ∧
    (∃ st1, applyFilters env st = Except.ok st1 ∧
      st1.machines = st.machines ∧
      st1.filteredMachines.Perm
        (st.machines.filter (specSelected env st.osFilter st.issueFilter st.searchFilter)) ∧
      (st.osFilter = "" → st.issueFilter = "" → st.searchFilter = "" →
        st1.filteredMachines.Perm st.machines) ∧
      (st.issueFilter ≠ "" →
        st.issueFilter ∉
          ["unencrypted_disk", "outdated_os", "no_antivirus", "sleep_noncompliant"] →
        st1.filteredMachines = [])) ∧
    (∃ st2, clearFilters env st = Except.ok st2 ∧
      st2.osFilter = "" ∧ st2.issueFilter = "" ∧ st2.searchFilter = "" ∧
      st2.filteredMachines.Perm st.machines) := by
  refine ⟨fun m => specSelected_iff env _ _ _ m, ?_, ?_⟩
  · refine ⟨_, applyFilters_ok env st hid, rfl, arraySort_perm _ _, ?_, ?_⟩
    · intro h1 h2 h3
      refine (arraySort_perm _ _).trans ?_
      have : st.machines.filter (specSelected env st.osFilter st.issueFilter st.searchFilter) =
          st.machines := by
        rw [List.filter_eq_self]
        intro m _
        simp [specSelected, h1, h2, h3]
      show (st.machines.filter _).Perm st.machines
      rw [this]
    · intro h1 h2
      have : st.machines.filter (specSelected env st.osFilter st.issueFilter st.searchFilter) =
          [] := by
        rw [List.filter_eq_nil_iff]
        intro m _
        simp [specSelected, h1, hasIssue_unknown m _ h2]
      show arraySort _ (st.machines.filter _) = []
      rw [this]
      rfl
  · refine ⟨_, applyFilters_ok env _ hid, rfl, rfl, rfl, ?_⟩
    refine (arraySort_perm _ _).trans ?_
    have : st.machines.filter (specSelected env "" "" "") = st.machines := by
      rw [List.filter_eq_self]
      intro m _
      simp [specSelected]
    show (st.machines.filter _).Perm st.machines
    rw [this]

/-- Witness for C2: the three sample records, filtered by the search text `A`. -/
theorem applyFilters_selects_witness :
    (∀ m ∈ ({ sampleState with searchFilter := "A" } : AppState).machines,
      ∃ id, m.prop "machine_id" = some (Json.str id)) ∧
    ∃ st1, applyFilters sampleEnv { sampleState with searchFilter := "A" } = Except.ok st1 ∧
      st1.filteredMachines.Perm
        (({ sampleState with searchFilter := "A" } : AppState).machines.filter
          (specSelected sampleEnv "" "" "A")) := by
  have h : ∀ m ∈ ({ sampleState with searchFilter := "A" } : AppState).machines,
      ∃ id, m.prop "machine_id" = some (Json.str id) := by
    intro m hm
    simp only [sampleState, initialState, List.mem_cons, List.mem_singleton,
      List.not_mem_nil, or_false] at hm
    rcases hm with rfl | rfl | rfl <;> exact ⟨_, rfl⟩
  obtain ⟨st1, h1, _, h2, _⟩ :=
    (applyFilters_selects sampleEnv { sampleState with searchFilter := "A" } h).2.1
  exact ⟨h, st1, h1, h2⟩

/-- C3: `sortMachines` leaves `filteredMachines` a permutation of its previous
contents, and when the sort keys are mutually comparable every adjacent pair
is in key order, descending when `sortDirection` is `desc` and ascending
otherwise (in particular for `asc`): by status when `sortColumn` is `status`,
by time instant when it is `timestamp` and every timestamp is a valid date,
by lower-cased string value when every record holds a string in the column.
Strings are ordered by code units. With `timestamp` and `desc` the first
record has the latest instant. -/
theorem sortMachines_orders (env : JsEnv) (st : AppState) :
    (sortMachines env st).filteredMachines.Perm st.filteredMachines ∧
    (st.sortColumn = "status" →
      (sortMachines env st).filteredMachines.Chain' (fun a b =>
        if st.sortDirection = "desc"
        then codeUnits (getMachineStatus b) ≤ codeUnits (getMachineStatus a)
        else codeUnits (getMachineStatus a) ≤ codeUnits (getMachineStatus b))) ∧
    (st.sortColumn = "timestamp" → ∀ time : Machine → Int,
      (∀ m ∈ st.filteredMachines, env.newDate (m.prop "timestamp") = some (time m)) →
      (sortMachines env st).filteredMachines.Chain' (fun a b =>
        if st.sortDirection = "desc" then time b ≤ time a else time a ≤ time b) ∧
      (st.sortDirection = "desc" → ∀ first rest,
        (sortMachines env st).filteredMachines = first :: rest →
        ∀ m ∈ st.filteredMachines, time m ≤ time first)) ∧
    (st.sortColumn ≠ "status" → st.sortColumn ≠ "timestamp" → ∀ text : Machine → String,
      (∀ m ∈ st.filteredMachines, m.prop st.sortColumn = some (Json.str (text m))) →
      (sortMachines env st).filteredMachines.Chain' (fun a b =>
        if st.sortDirection = "desc"
        then codeUnits (env.toLowerCase (text b)) ≤ codeUnits (env.toLowerCase (text a))
        else codeUnits (env.toLowerCase (text a)) ≤ codeUnits (env.toLowerCase (text b)))) := by
  refine ⟨arraySort_perm _ _, ?_, ?_, ?_⟩
  · intro hcol
    refine (sortMachines_pairwise env st (fun m => codeUnits (getMachineStatus m)) ?_).chain'
    intro a _ b _
    simp [sortOperand, hcol, toLowerCase_status, jsLess]
  · intro hcol time hvalid
    have hp := sortMachines_pairwise env st time (by
      intro a ha b hb
      have h1 := hvalid a ha
      have h2 := hvalid b hb
      simp [sortOperand, hcol, h1, h2, jsLess])
    refine ⟨hp.chain', ?_⟩
    intro hd first rest hout m hm
    rw [hout] at hp
    simp only [hd, if_true] at hp
    have hmem : m ∈ first :: rest := by
      rw [← hout]
      exact (arraySort_perm _ _).mem_iff.mpr hm
    rcases List.mem_cons.mp hmem with h | h
    · rw [h]
    · exact (List.pairwise_cons.mp hp).1 m h
  · intro hs ht text hstr
    refine (sortMachines_pairwise env st (fun m => codeUnits (env.toLowerCase (text m))) ?_).chain'
    intro a ha b hb
    simp [sortOperand, hs, ht, hstr a ha, hstr b hb, jsLess]

/-- Witness for C3: the three sample records in the initial sort state
(`timestamp`, `desc`), all with valid timestamps. -/
theorem sortMachines_orders_witness :
    (∀ m ∈ sampleState.filteredMachines,
      sampleEnv.newDate (m.prop "timestamp") =
        some ((sampleEnv.newDate (m.prop "timestamp")).getD 0)) ∧
    (sortMachines sampleEnv sampleState).filteredMachines.Chain' (fun a b =>
      if sampleState.sortDirection = "desc"
      then (sampleEnv.newDate (b.prop "timestamp")).getD 0 ≤
        (sampleEnv.newDate (a.prop "timestamp")).getD 0
      else (sampleEnv.newDate (a.prop "timestamp")).getD 0 ≤
        (sampleEnv.newDate (b.prop "timestamp")).getD 0) := by
  have h : ∀ m ∈ sampleState.filteredMachines,
      sampleEnv.newDate (m.prop "timestamp") =
        some ((sampleEnv.newDate (m.prop "timestamp")).getD 0) := by
    intro m hm
    simp only [sampleState, initialState, List.mem_cons, List.mem_singleton,
      List.not_mem_nil, or_false] at hm
    rcases hm with rfl | rfl | rfl <;> rfl
  exact ⟨h, ((sortMachines_orders sampleEnv sampleState).2.2.1 rfl
    (fun m => (sampleEnv.newDate (m.prop "timestamp")).getD 0) h).1⟩

/-- C4, as stated, fails: `REFRESH_INTERVAL` is not 300000, and the timer that
`startAutoRefresh` registers does not have a five-minute period. -/
theorem refreshInterval_not_five_minutes :
    REFRESH_INTERVAL ≠ 300000 ∧
    ¬ (∀ t ∈ (startAutoRefresh TimerState.initial).active, t.delay = 300000) := by
  refine ⟨by decide, ?_⟩
  intro h
  have h1 := h ⟨1, TimerCallback.loadMachines, REFRESH_INTERVAL⟩
    (by simp [startAutoRefresh, TimerState.initial])
  exact absurd h1 (by decide)

/-- C4, amended: the timer polls on a thirty-second period. `REFRESH_INTERVAL`
equals 30000 milliseconds, and `startAutoRefresh` registers one more interval
timer that invokes `loadMachines` with that delay and stores its id in
`refreshInterval`. -/
theorem refreshInterval_thirty_seconds (ts : TimerState) :
    REFRESH_INTERVAL = 30 * 1000 ∧
    (startAutoRefresh ts).active = ts.active ++
      [{ id := ts.nextId, callback := TimerCallback.loadMachines, delay := 30000 }] ∧
    (startAutoRefresh ts).refreshInterval = Handle.id ts.nextId :=
  ⟨rfl, rfl, rfl⟩

/-- C5 at a failing input: one record whose `machine_id` is `null`, with the
search text `a`. After a successful fetch `updateStats` completes, but the
filter callback of `applyFilters` raises a `TypeError`; `loadMachines` catches
it and shows the load-failure message. -/
theorem pipeline_null_machine_id_throws :
    applyFilters sampleEnv
        (updateStats sampleEnv
          { initialState with machines := [sampleNullId], searchFilter := "a" }) =
      Except.error JsError.typeError ∧
    (loadMachines sampleEnv (Except.ok (some [sampleNullId]))
        { initialState with searchFilter := "a" }).errorVisible = true ∧
    (loadMachines sampleEnv (Except.ok (some [sampleNullId]))
        { initialState with searchFilter := "a" }).errorText =
      "Failed to load machine data: Cannot read properties of null (reading 'toLowerCase')" :=
  ⟨rfl, rfl, rfl⟩

/-- C6 at a failing input: `DOMContentLoaded` followed by a `visibilitychange`
with the page visible leaves two interval timers active; a following
`visibilitychange` with the page hidden clears only the second, so one timer
stays active while `refreshInterval` is `null`. -/
theorem autoRefresh_leaks_timer :
    (runTimer [false]).active.map (fun t => t.id) = [1, 2] ∧
    (runTimer [false]).refreshInterval = Handle.id 2 ∧
    (runTimer [false, true]).active.map (fun t => t.id) = [1] ∧
    (runTimer [false, true]).refreshInterval = Handle.null :=
  ⟨rfl, rfl, rfl, rfl⟩

/-- C7: the counters of `updateStats` satisfy `total = healthy + withIssues`,
where `total` is the number of records, `healthy` the number with status
`healthy`, and `withIssues` the number with status `critical` or `warning`;
for the empty list all three are 0 and the last-update text is `--`. -/
theorem updateStats_counters (env : JsEnv) (st : AppState) :
    (updateStats env st).stats.totalMachines =
      (updateStats env st).stats.healthyCount + (updateStats env st).stats.issueCount ∧
    (updateStats env st).stats.totalMachines = (st.machines.length : Int) ∧
    (updateStats env st).stats.healthyCount =
      ((st.machines.filter fun m => getMachineStatus m = "healthy").length : Int) ∧
    (updateStats env st).stats.issueCount =
      ((st.machines.filter fun m =>
        getMachineStatus m = "critical" ∨ getMachineStatus m = "warning").length : Int) ∧
    (st.machines = [] →
      (updateStats env st).stats.totalMachines = 0 ∧
      (updateStats env st).stats.healthyCount = 0 ∧
      (updateStats env st).stats.issueCount = 0 ∧
      (updateStats env st).stats.lastUpdate = "--") := by
  have hsplit := List.length_eq_length_filter_add (l := st.machines)
    (fun m => decide (getMachineStatus m = "healthy"))
  have hcongr : (st.machines.filter fun m => ! decide (getMachineStatus m = "healthy")) =
      st.machines.filter fun m =>
        decide (getMachineStatus m = "critical" ∨ getMachineStatus m = "warning") := by
    apply List.filter_congr
    intro m _
    have := status_ne_healthy_iff m
    by_cases h : getMachineStatus m = "healthy"
    · simp only [h, decide_True, Bool.not_true]
      symm
      rw [decide_eq_false_iff_not, ← h, ← status_ne_healthy_iff]
      simp [h]
    · simp only [h, decide_False, Bool.not_false]
      symm
      rw [decide_eq_true_iff]
      exact this.mp h
  rw [hcongr] at hsplit
  refine ⟨?_, rfl, rfl, ?_, ?_⟩
  · simp only [updateStats, computeStats]
    ring
  · show (st.machines.length : Int) - _ = _
    rw [hsplit]
    push_cast
    ring
  · intro h
    simp [updateStats, computeStats, lastUpdateOf, h]

/-- Witness for C7: the initial state has no records. -/
theorem updateStats_counters_witness :
    initialState.machines = [] ∧
    (updateStats sampleEnv initialState).stats.totalMachines = 0 ∧
    (updateStats sampleEnv initialState).stats.healthyCount = 0 ∧
    (updateStats sampleEnv initialState).stats.issueCount = 0 ∧
    (updateStats sampleEnv initialState).stats.lastUpdate = "--" :=
  ⟨rfl, (updateStats_counters sampleEnv initialState).2.2.2.2 rfl⟩

/-- C8: `handleSort` keeps the column and flips the direction between `asc`
and `desc` when the requested column is the current one, and otherwise
selects the requested column with direction `desc`. It leaves `machines`
unchanged and `filteredMachines` a permutation of what it was. In every state
reachable from the initial state (`timestamp`, `desc`) the direction is `asc`
or `desc`, and calling `handleSort` twice with the current column restores the
sort state. -/
theorem handleSort_transition (env : JsEnv) (column : String) (st : AppState) :
    (st.sortColumn = column →
      (handleSort env column st).sortColumn = st.sortColumn ∧
      (st.sortDirection = "asc" → (handleSort env column st).sortDirection = "desc") ∧
      (st.sortDirection = "desc" → (handleSort env column st).sortDirection = "asc")) ∧
    (st.sortColumn ≠ column →
      (handleSort env column st).sortColumn = column ∧
      (handleSort env column st).sortDirection = "desc") ∧
    (handleSort env column st).filteredMachines.Perm st.filteredMachines ∧
    (handleSort env column st).machines = st.machines ∧
    (initialState.sortColumn = "timestamp" ∧ initialState.sortDirection = "desc") ∧
    (∀ events : List AppEvent,
      ((runApp env events).sortDirection = "asc" ∨
        (runApp env events).sortDirection = "desc") ∧
      (handleSort env (runApp env events).sortColumn
          (handleSort env (runApp env events).sortColumn (runApp env events))).sortColumn =
        (runApp env events).sortColumn ∧
      (handleSort env (runApp env events).sortColumn
          (handleSort env (runApp env events).sortColumn (runApp env events))).sortDirection =
        (runApp env events).sortDirection) := by
  refine ⟨?_, ?_, ?_, ?_, ⟨rfl, rfl⟩, ?_⟩
  · intro hc
    refine ⟨?_, ?_, ?_⟩
    · simp [handleSort, sortMachines, hc]
    · intro hd
      simp [handleSort, sortMachines, hc, hd]
    · intro hd
      simp [handleSort, sortMachines, hc, hd]
  · intro hc
    simp [handleSort, sortMachines, hc]
  · unfold handleSort sortMachines
    by_cases hc : st.sortColumn = column
    · simp only [hc, if_true]
      exact arraySort_perm _ _
    · simp only [hc, if_false]
      exact arraySort_perm _ _
  · unfold handleSort sortMachines
    by_cases hc : st.sortColumn = column <;> simp [hc]
  · intro events
    have hv := runApp_direction_valid env events
    have ht := handleSort_twice env (runApp env events) hv
    exact ⟨hv, ht.1, ht.2⟩

/-- Witness for C8: a click on the `timestamp` header in the sample state,
whose sort state is (`timestamp`, `desc`), gives (`timestamp`, `asc`). -/
theorem handleSort_transition_witness :
    sampleState.sortColumn = "timestamp" ∧ sampleState.sortDirection = "desc" ∧
    (handleSort sampleEnv "timestamp" sampleState).sortColumn = sampleState.sortColumn ∧
    (handleSort sampleEnv "timestamp" sampleState).sortDirection = "asc" :=
  ⟨rfl, rfl, ((handleSort_transition sampleEnv "timestamp" sampleState).1 rfl).1,
    ((handleSort_transition sampleEnv "timestamp" sampleState).1 rfl).2.2 rfl⟩

/-- C9, as stated, fails: a record whose `encrypted` value is the string
`"yes"` and whose other checks are `true` has status `healthy`, while its
disk-encryption cell is rendered `Unknown`, not `Pass`. -/
theorem status_badge_disagree :
    getMachineStatus sampleStringCheck = "healthy" ∧
    getCheckStatus (sampleStringCheck.prop "disk_encryption") "encrypted" = badgeUnknown ∧
    ¬ (getMachineStatus sampleStringCheck = "healthy" ↔
      ∀ cell ∈ tableCheckCells sampleStringCheck, cell = badgePass) := by
  refine ⟨by decide, by decide, ?_⟩
  intro h
  have h1 := h.mp (by decide)
    (getCheckStatus (sampleStringCheck.prop "disk_encryption") "encrypted")
    (by simp [tableCheckCells])
  exact absurd h1 (by decide)

/-- C9, amended: for a record whose four check values are each `true`,
`false`, `null` or absent, `getMachineStatus` returns `healthy` exactly when
`getCheckStatus` renders `Pass` for each of the four checks. For every record,
whatever JSON values its checks hold, four `Pass` cells imply `healthy`, and
the status is `critical` exactly when some cell is `Fail`. For every check
object and property `getCheckIcon` classifies as `getCheckStatus` does. -/
theorem status_badge_agreement (m : Machine) :
    ((∀ v ∈ machineChecks m, v = some (Json.bool true) ∨ v = some (Json.bool false) ∨
        v = some Json.null ∨ v = none) →
      (getMachineStatus m = "healthy" ↔ ∀ cell ∈ tableCheckCells m, cell = badgePass)) ∧
    ((∀ cell ∈ tableCheckCells m, cell = badgePass) → getMachineStatus m = "healthy") ∧
    (getMachineStatus m = "critical" ↔ ∃ cell ∈ tableCheckCells m, cell = badgeFail) ∧
    (∀ (check : JsVal) (property : String),
      (getCheckIcon check property = iconPass ↔ getCheckStatus check property = badgePass) ∧
      (getCheckIcon check property = iconFail ↔ getCheckStatus check property = badgeFail) ∧
      (getCheckIcon check property = iconUnknown ↔
        getCheckStatus check property = badgeUnknown)) := by
  have hpass : (∀ cell ∈ tableCheckCells m, cell = badgePass) ↔
      ∀ v ∈ machineChecks m, v = some (Json.bool true) := by
    simp [tableCheckCells, machineChecks, getCheckStatus_pass_iff]
  have hfail : (∃ cell ∈ tableCheckCells m, cell = badgeFail) ↔
      ∃ v ∈ machineChecks m, v = some (Json.bool false) := by
    have e1 : ∀ (c : JsVal) (p : String),
        badgeFail = getCheckStatus c p ↔ some (Json.bool false) = optChain c p := by
      intro c p
      rw [eq_comm, getCheckStatus_fail_iff, eq_comm]
    simp [tableCheckCells, machineChecks, e1]
  have himp : (∀ cell ∈ tableCheckCells m, cell = badgePass) → getMachineStatus m = "healthy" := by
    intro h
    rw [hpass] at h
    rw [status_healthy_iff]
    refine ⟨fun v hv => ?_, fun v hv => ?_⟩
    · rw [h v hv]; simp
    · rw [h v hv]; simp
  refine ⟨?_, himp, ?_, ?_⟩
  · intro hbool
    refine ⟨fun hh => ?_, himp⟩
    rw [hpass]
    rw [status_healthy_iff] at hh
    intro v hv
    rcases hbool v hv with h | h | h | h
    · exact h
    · exact absurd h (hh.1 v hv)
    · exact absurd h (hh.2 v hv).2
    · exact absurd h (hh.2 v hv).1
  · rw [hfail]
    exact status_critical_iff m
  · intro check property
    have hp : getCheckIcon check property = iconPass ↔
        getCheckStatus check property = badgePass := by
      rw [getCheckIcon_pass_iff, getCheckStatus_pass_iff]
    have hf : getCheckIcon check property = iconFail ↔
        getCheckStatus check property = badgeFail := by
      rw [getCheckIcon_fail_iff, getCheckStatus_fail_iff]
    refine ⟨hp, hf, ?_⟩
    have hpu : iconPass ≠ iconUnknown := by decide
    have hfu : iconFail ≠ iconUnknown := by decide
    have bpu : badgePass ≠ badgeUnknown := by decide
    have bfu : badgeFail ≠ badgeUnknown := by decide
    rcases getCheckIcon_cases check property with hi | hi | hi
    · have hb := hp.mp hi
      rw [hi, hb]
      exact ⟨fun h => absurd h hpu, fun h => absurd h bpu⟩
    · have hb := hf.mp hi
      rw [hi, hb]
      exact ⟨fun h => absurd h hfu, fun h => absurd h bfu⟩
    · rcases getCheckStatus_cases check property with hb | hb | hb
      · rw [hp.mpr hb] at hi
        exact absurd hi hpu
      · rw [hf.mpr hb] at hi
        exact absurd hi hfu
      · rw [hi, hb]
        simp

/-- Witness for C9: the sample record with an unencrypted disk has only
boolean, `null` or absent check values, and is not `healthy`. -/
theorem status_badge_agreement_witness :
    (∀ v ∈ machineChecks sampleCritical, v = some (Json.bool true) ∨
      v = some (Json.bool false) ∨ v = some Json.null ∨ v = none) ∧
    (getMachineStatus sampleCritical = "healthy" ↔
      ∀ cell ∈ tableCheckCells sampleCritical, cell = badgePass) := by
  have h : ∀ v ∈ machineChecks sampleCritical, v = some (Json.bool true) ∨
      v = some (Json.bool false) ∨ v = some Json.null ∨ v = none := by
    intro v hv
    simp only [machineChecks, List.mem_cons, List.mem_singleton, List.not_mem_nil,
      or_false] at hv
    rcases hv with rfl | rfl | rfl | rfl
    · exact Or.inr (Or.inl rfl)
    · exact Or.inl rfl
    · exact Or.inl rfl
    · exact Or.inr (Or.inr (Or.inr rfl))
  exact ⟨h, (status_badge_agreement sampleCritical).1 h⟩

/-- C10: `getMachineStatus` returns `critical` exactly when `hasIssue` is true
for one of the four issue types; a record that is not `critical` (so every
`healthy` or `warning` one) is selected by no issue filter, and a `critical`
record is selected by at least one. -/
theorem hasIssue_iff_critical (m : Machine) :
    (getMachineStatus m = "critical" ↔
      ∃ t ∈ ["unencrypted_disk", "outdated_os", "no_antivirus", "sleep_noncompliant"],
        hasIssue m t = true) ∧
    (getMachineStatus m = "healthy" ∨ getMachineStatus m = "warning" →
      ∀ t : String, hasIssue m t = false) ∧
    (getMachineStatus m = "critical" →
      ∃ t ∈ ["unencrypted_disk", "outdated_os", "no_antivirus", "sleep_noncompliant"],
        hasIssue m t = true) := by
  have hiff : getMachineStatus m = "critical" ↔
      ∃ t ∈ ["unencrypted_disk", "outdated_os", "no_antivirus", "sleep_noncompliant"],
        hasIssue m t = true := by
    rw [status_critical_iff]
    simp [machineChecks, hasIssue, isFalse_iff]
    simp only [eq_comm (a := some (Json.bool false))]
  refine ⟨hiff, ?_, hiff.mp⟩
  intro hs t
  have hnc : ¬ getMachineStatus m = "critical" := by
    rcases hs with h | h <;> rw [h] <;> decide
  by_cases ht : t ∈ ["unencrypted_disk", "outdated_os", "no_antivirus", "sleep_noncompliant"]
  · cases hv : hasIssue m t
    · rfl
    · exact absurd (hiff.mpr ⟨t, ht, hv⟩) hnc
  · exact hasIssue_unknown m t ht

/-- Witness for C10: the healthy sample record is selected by no issue filter. -/
theorem hasIssue_iff_critical_witness :
    getMachineStatus sampleHealthy = "healthy" ∧
    ∀ t : String, hasIssue sampleHealthy t = false :=
  ⟨by decide, (hasIssue_iff_critical sampleHealthy).2.1 (Or.inl (by decide))⟩

/-- C11: `loadMachines` is atomic on failure. When `fetchMachines` throws (the
fetch is rejected, or the response's `ok` flag is false), `machines`,
`filteredMachines`, `sortColumn` and `sortDirection` are as before the call,
the error message is shown with the text `Failed to load machine data: `
followed by the error's message, and the loading indicator is hidden. When
the fetch succeeds with a `null` body, `machines` becomes the empty list. -/
theorem loadMachines_atomic_on_failure (env : JsEnv) (st : AppState) :
    (∀ e : JsError, fetchMachines (FetchOutcome.rejected e) = Except.error e) ∧
    (∀ (status : Nat) (statusText : String) (body : Except JsError (Option (List Machine))),
      fetchMachines (FetchOutcome.response false status statusText body) =
        Except.error (JsError.error ("HTTP " ++ toString status ++ ": " ++ statusText))) ∧
    (∀ (outcome : FetchOutcome) (e : JsError), fetchMachines outcome = Except.error e →
      (loadMachines env (fetchMachines outcome) st).machines = st.machines ∧
      (loadMachines env (fetchMachines outcome) st).filteredMachines = st.filteredMachines ∧
      (loadMachines env (fetchMachines outcome) st).sortColumn = st.sortColumn ∧
      (loadMachines env (fetchMachines outcome) st).sortDirection = st.sortDirection ∧
      (loadMachines env (fetchMachines outcome) st).errorVisible = true ∧
      (loadMachines env (fetchMachines outcome) st).errorText =
        "Failed to load machine data: " ++ e.message env ∧
      (loadMachines env (fetchMachines outcome) st).loadingVisible = false) ∧
    (∀ (status : Nat) (statusText : String),
      fetchMachines (FetchOutcome.response true status statusText (Except.ok none)) =
        Except.ok none ∧
      (loadMachines env
        (fetchMachines (FetchOutcome.response true status statusText (Except.ok none)))
        st).machines = []) := by
  refine ⟨fun _ => rfl, fun _ _ _ => rfl, ?_, fun _ _ => ⟨rfl, rfl⟩⟩
  intro outcome e h
  rw [h]
  exact ⟨rfl, rfl, rfl, rfl, rfl, rfl, rfl⟩

/-- Witness for C11: a response with status 500 while the three sample
records are loaded. -/
theorem loadMachines_atomic_on_failure_witness :
    fetchMachines (FetchOutcome.response false 500 "Internal Server Error" (Except.ok none)) =
      Except.error (JsError.error "HTTP 500: Internal Server Error") ∧
    (loadMachines sampleEnv
      (fetchMachines (FetchOutcome.response false 500 "Internal Server Error" (Except.ok none)))
      sampleState).errorText =
      "Failed to load machine data: " ++
        (JsError.error "HTTP 500: Internal Server Error").message sampleEnv :=
  ⟨rfl, ((loadMachines_atomic_on_failure sampleEnv sampleState).2.2.1
    (FetchOutcome.response false 500 "Internal Server Error" (Except.ok none))
    (JsError.error "HTTP 500: Internal Server Error") rfl).2.2.2.2.2.1⟩

/-- C12: as a function of the difference `d` in milliseconds between now and
the given date, `formatRelativeTime` returns `Just now` exactly when
`d < 60000` (every negative `d` included); `floor(d / 60000)` followed by
`m ago` for `60000 <= d < 3600000`; `floor(d / 3600000)` followed by `h ago`
for `3600000 <= d < 86400000`; and `floor(d / 86400000)` followed by `d ago`
for `d >= 86400000`. The nested floors of the code (hours from whole minutes,
days from whole hours) equal the direct quotients. -/
theorem formatRelativeTime_ranges (d : Int) :
    (∀ (env : JsEnv) (t : Int), env.now - t = d →
      formatRelativeTime env (some t) = formatRelativeTimeDiff (some d)) ∧
    (formatRelativeTimeDiff (some d) = "Just now" ↔ d < 60000) ∧
    (d < 0 → formatRelativeTimeDiff (some d) = "Just now") ∧
    (60000 ≤ d → d < 3600000 →
      formatRelativeTimeDiff (some d) = toString (d / 60000) ++ "m ago") ∧
    (3600000 ≤ d → d < 86400000 →
      formatRelativeTimeDiff (some d) = toString (d / 3600000) ++ "h ago") ∧
    (86400000 ≤ d →
      formatRelativeTimeDiff (some d) = toString (d / 86400000) ++ "d ago") ∧
    (0 ≤ d → d / 60000 / 60 = d / 3600000 ∧ d / 60000 / 60 / 24 = d / 86400000) := by
  have hh : d / 60000 / 60 = d / 3600000 := by omega
  have hd : d / 60000 / 60 / 24 = d / 86400000 := by omega
  refine ⟨?_, formatRelativeTimeDiff_just_now_iff d, ?_, ?_, ?_, ?_, fun _ => ⟨hh, hd⟩⟩
  · intro env t h
    rw [← h]
    rfl
  · intro h
    exact (formatRelativeTimeDiff_just_now_iff d).mpr (by omega)
  · intro h1 h2
    unfold formatRelativeTimeDiff
    simp only []
    rw [if_neg (by omega), if_pos (by omega)]
  · intro h1 h2
    unfold formatRelativeTimeDiff
    simp only []
    rw [if_neg (by omega), if_neg (by omega), if_pos (by omega), hh]
  · intro h1
    unfold formatRelativeTimeDiff
    simp only []
    rw [if_neg (by omega), if_neg (by omega), if_neg (by omega), hd]

/-- Witness for C12: a date 500000 milliseconds before now is shown as `8m ago`. -/
theorem formatRelativeTime_ranges_witness :
    (60000 : Int) ≤ 500000 ∧ (500000 : Int) < 3600000 ∧
    formatRelativeTimeDiff (some 500000) = toString ((500000 : Int) / 60000) ++ "m ago" :=
  ⟨by decide, by decide, (formatRelativeTime_ranges 500000).2.2.2.1 (by decide) (by decide)⟩

end Dashboard
